import Mathlib

/- Verification development for the gradient-privatization pipeline of
   train_psgd_dp.py: parameter/gradient vectorization, subspace projection and
   reconstruction, per-example clipping, calibrated noise injection, and the
   per-step orchestrator P_SGD_DP.  Floating-point tensors are modelled as
   exact real numbers (or, for the purely structural vectorizer operations,
   values of an arbitrary type); gradient batches, the basis and embeddings are
   modelled as Mathlib matrices over the reals. -/

/-- Model of one trainable parameter as produced by model.named_parameters():
its declared shape, its value storage (param.data) and its gradient storage
(param.grad), both kept in flattened row-major order.  In torch,
param.grad.shape always equals param.data.shape, which is the declared shape. -/
structure Param (α : Type) where
  shape : List Nat
  data : List α
  grad : List α
deriving DecidableEq

/-- Element count of a shape descriptor: the source computes size as the
product of the entries of arr_shape (train_psgd_dp.py lines 131-133, 141-143). -/
def shapeSize (shape : List Nat) : Nat := shape.prod

/-- Total number of scalar elements across all declared parameter shapes of a
model, in iteration order. -/
def totalSize {α : Type} (model : List (Param α)) : Nat :=
  (model.map (fun p => shapeSize p.shape)).sum

/-- get_model_param_vec (lines 102-109): reshape every parameter tensor to a
flat vector and concatenate them in the fixed named_parameters iteration
order. -/
def get_model_param_vec {α : Type} (model : List (Param α)) : List α :=
  (model.map Param.data).flatten

/-- get_model_grad_vec (lines 111-117): the same flattening applied to the
gradient storage of every parameter. -/
def get_model_grad_vec {α : Type} (model : List (Param α)) : List α :=
  (model.map Param.grad).flatten

/-- update_grad (lines 127-135): consume grad_vec in iteration order, slicing
grad_vec[idx:idx+size] for every parameter and reshaping the slice into the
parameter's gradient storage.  A python slice silently clamps at the end of
the vector, and tensor reshape raises a RuntimeError when the slice does not
hold exactly size elements; that error is modelled as none.  Elements left
over after the last parameter are silently ignored by the source, hence also
here. -/
def update_grad {α : Type} : List (Param α) → List α → Option (List (Param α))
  | [], _ => some []
  | p :: ps, vec =>
    let size := shapeSize p.shape
    if (vec.take size).length = size then
      (update_grad ps (vec.drop size)).map
        (fun rest => { p with grad := vec.take size } :: rest)
    else
      none

/-- update_param (lines 137-145): identical slicing discipline as update_grad,
writing into param.data instead of param.grad. -/
def update_param {α : Type} : List (Param α) → List α → Option (List (Param α))
  | [], _ => some []
  | p :: ps, vec =>
    let size := shapeSize p.shape
    if (vec.take size).length = size then
      (update_param ps (vec.drop size)).map
        (fun rest => { p with data := vec.take size } :: rest)
    else
      none

/-- L2 norm of one row: torch.norm(tsr, dim=1) for a single row (line 351),
equivalently torch.sqrt(torch.sum(col ** 2)) (line 362). -/
noncomputable def rowNorm {k : ℕ} (v : Fin k → ℝ) : ℝ :=
  Real.sqrt (∑ j, v j ^ 2)

/-- Projection into the subspace: embedding = torch.matmul(grad,
selected_bases) with selected_bases = P.T (lines 371, 374), i.e. the matrix
product of the batch with the basis transpose. -/
noncomputable def project {n k d : ℕ} (P : Matrix (Fin k) (Fin d) ℝ)
    (batch : Matrix (Fin n) (Fin d) ℝ) : Matrix (Fin n) (Fin k) ℝ :=
  batch * P.transpose

/-- Reconstruction from the subspace: torch.matmul(embedding,
selected_bases_T) with selected_bases_T = P (lines 372, 377, 402), i.e. the
matrix product of the embedding with the basis. -/
noncomputable def reconstruct {m k d : ℕ} (P : Matrix (Fin k) (Fin d) ℝ)
    (embedding : Matrix (Fin m) (Fin k) ℝ) : Matrix (Fin m) (Fin d) ℝ :=
  embedding * P

/-- clip_column with inplace=False (lines 350-354): norms = torch.norm(tsr,
dim=1); scale = torch.clamp(clip / norms, max=1.0); result = tsr *
scale.view(-1, 1).  torch.clamp(x, max=1.0) is min x 1.  This exact-real
model is value-faithful for clip > 0 (for a zero-norm row the float scale
clip / 0 = +inf clamps to 1 and the zero row stays zero, as here); for
clip <= 0 together with a zero-norm row the float kernel produces NaN, which
the total real division cannot represent - that corner is modelled separately
by clip_column_float below. -/
noncomputable def clip_column {n k : ℕ} (tsr : Matrix (Fin n) (Fin k) ℝ)
    (clip : ℝ) : Matrix (Fin n) (Fin k) ℝ :=
  fun i j => tsr i j * min (clip / rowNorm (tsr i)) 1

/-- inplace_clipping (lines 356-364): for every row, col_norm =
torch.sqrt(torch.sum(col ** 2)); if col_norm > clip the row is divided by
(col_norm / clip).  The in-place row mutation touches no other row, so the
rowwise functional map is a faithful model; clip_column with inplace=True
(line 349) delegates to this kernel.  The exact-real model is value-faithful
for clip > 0; the float corner clip < 0 with a zero-norm row (where the
division col / (0 / clip) yields NaN) is modelled separately by
inplace_clipping_float below. -/
noncomputable def inplace_clipping {n k : ℕ} (matrix : Matrix (Fin n) (Fin k) ℝ)
    (clip : ℝ) : Matrix (Fin n) (Fin k) ℝ :=
  fun i j =>
    if clip < rowNorm (matrix i) then matrix i j / (rowNorm (matrix i) / clip)
    else matrix i j

/-- Mean, max and median of the per-row norms (lines 383, 391), for a
nonempty batch.  torch.max of a nonempty tensor is the last element in
ascending order and torch.median is the lower middle element, both modelled on
the ascending insertion sort of the values. -/
noncomputable def statsTriple {n : ℕ} (norms : Fin n → ℝ) : ℝ × ℝ × ℝ :=
  ((∑ i, norms i) / n,
   ((List.ofFn norms).insertionSort (· ≤ ·)).getD (n - 1) 0,
   ((List.ofFn norms).insertionSort (· ≤ ·)).getD ((n - 1) / 2) 0)

/-- Norm statistics as computed at lines 383 and 391.  torch.max and
torch.median raise a RuntimeError on an empty tensor, which is how an n = 0
batch actually surfaces; that failure is modelled as none. -/
noncomputable def normsStat {n : ℕ} (norms : Fin n → ℝ) : Option (ℝ × ℝ × ℝ) :=
  if 0 < n then some (statsTriple norms) else none

/-- Mean aggregation of the clipped embedding (line 394):
torch.sum(clipped_embedding, dim=0) / embedding.shape[0]. -/
noncomputable def avg_clipped {n k : ℕ} (clipped : Matrix (Fin n) (Fin k) ℝ) :
    Fin k → ℝ :=
  fun j => (∑ i, clipped i j) / n

/-- Noise injection (lines 398-400): theta_noise = torch.normal(0,
noise_multiplier * clip / embedding.shape[0], size=clipped_theta.shape);
clipped_theta += theta_noise.  The call passes no generator argument, so the
draw comes from torch's global default generator; g models that ambient
module-level state as the stream of standard normal values it would emit, and
component j consumes draw j, so distinct components use independent draws.
A successful draw of torch.normal(0, s) is exactly s times a standard normal
value; torch.normal validates s >= 0 first and raises a RuntimeError
otherwise, which P_SGD_DP models explicitly before applying this formula. -/
noncomputable def inject_noise {k : ℕ} (noise_multiplier clip : ℝ) (n : ℕ)
    (g : ℕ → ℝ) (clipped_theta : Fin k → ℝ) : Fin k → ℝ :=
  fun j => clipped_theta j + noise_multiplier * clip / n * g j.val

/-- Approximation-error diagnostic of lines 377-379: the relative squared
error between the reconstruction of the mean embedding and the mean gradient.
The source computes it and discards it (its print is commented out). -/
noncomputable def approx_error {n k d : ℕ} (P : Matrix (Fin k) (Fin d) ℝ)
    (grad : Matrix (Fin n) (Fin d) ℝ) : ℝ :=
  let embedding := project P grad
  let cur_approx : Fin d → ℝ :=
    reconstruct (m := 1) P (fun _ j => (∑ i, embedding i j) / n) 0
  let cur_target : Fin d → ℝ := fun x => (∑ i, grad i x) / n
  (∑ x, (cur_approx x - cur_target x) ^ 2) / (∑ x, cur_target x ^ 2)

/-- Ways a call of P_SGD_DP could abort.  EmptyBatch and InvalidClipBound are
the failure kinds the specification's error table demands; emptyReduction
models the RuntimeError that torch.max/torch.median actually raise when the
norm tensor is empty, and negativeStd the RuntimeError (normal expects
std >= 0.0) that torch.normal raises at line 398 when the derived standard
deviation noise_multiplier * clip / n is negative.  The source contains no
raise of its own. -/
inductive StepError where
  | EmptyBatch
  | InvalidClipBound
  | emptyReduction
  | negativeStd
deriving DecidableEq

/-- P_SGD_DP (lines 366-410): project the per-example gradient batch, record
pre-clip norm statistics, clip (functional variant, line 387), record
post-clip statistics, mean-aggregate, add noise, reconstruct.  The function
returns the two statistics triples of line 410 together with the
reconstructed noisy gradient that line 407 writes into the model's gradient
storage through update_grad.  The optimizer step of line 408 is external.  The
source performs no validation of n or clip of its own; the operations that
can fail are the norm-statistics reduction on an empty batch and the
torch.normal call of line 398, which raises when its standard deviation
noise_multiplier * clip / n is negative. -/
noncomputable def P_SGD_DP {n k d : ℕ} (P : Matrix (Fin k) (Fin d) ℝ)
    (g : ℕ → ℝ) (grad : Matrix (Fin n) (Fin d) ℝ)
    (noise_multiplier clip : ℝ) :
    Except StepError ((ℝ × ℝ × ℝ) × (ℝ × ℝ × ℝ) × (Fin d → ℝ)) :=
  let embedding := project P grad
  let _cur_error := approx_error P grad
  match normsStat (fun i => rowNorm (embedding i)) with
  | Option.none => Except.error StepError.emptyReduction
  | Option.some org_norms_stat =>
    let clipped_embedding := clip_column embedding clip
    match normsStat (fun i => rowNorm (clipped_embedding i)) with
    | Option.none => Except.error StepError.emptyReduction
    | Option.some clipped_norms_stat =>
      if noise_multiplier * clip / n < 0 then
        Except.error StepError.negativeStd
      else
        let clipped_theta :=
          inject_noise noise_multiplier clip n g (avg_clipped clipped_embedding)
        let noisy_grad := reconstruct (m := 1) P (fun _ => clipped_theta) 0
        Except.ok (org_norms_stat, clipped_norms_stat, noisy_grad)

/-- Orthonormal rows of the basis matrix: the pairwise dot products of the
rows form the identity pattern. -/
def orthonormalRows {k d : ℕ} (P : Matrix (Fin k) (Fin d) ℝ) : Prop :=
  ∀ i j, Matrix.dotProduct (P i) (P j) = if i = j then 1 else 0

lemma rowNorm_nonneg {k : ℕ} (v : Fin k → ℝ) : 0 ≤ rowNorm v :=
  Real.sqrt_nonneg _

lemma rowNorm_eq_zero_iff {k : ℕ} (v : Fin k → ℝ) :
    rowNorm v = 0 ↔ ∀ j, v j = 0 := by
  unfold rowNorm
  rw [Real.sqrt_eq_zero (Finset.sum_nonneg fun j _ => sq_nonneg (v j)),
    Finset.sum_eq_zero_iff_of_nonneg fun j _ => sq_nonneg (v j)]
  constructor
  · intro h j
    exact pow_eq_zero_iff (two_ne_zero) |>.mp (h j (Finset.mem_univ j))
  · intro h j _
    rw [h j]
    ring

lemma rowNorm_scale {k : ℕ} (v : Fin k → ℝ) (s : ℝ) :
    rowNorm (fun j => v j * s) = |s| * rowNorm v := by
  unfold rowNorm
  have h1 : (∑ j, (v j * s) ^ 2) = s ^ 2 * ∑ j, v j ^ 2 := by
    rw [Finset.mul_sum]
    exact Finset.sum_congr rfl fun j _ => by ring
  rw [h1, Real.sqrt_mul (sq_nonneg s), Real.sqrt_sq_eq_abs]

lemma clip_column_eq_inplace_aux {n k : ℕ} (tsr : Matrix (Fin n) (Fin k) ℝ)
    (C : ℝ) : clip_column tsr C = inplace_clipping tsr C := by
  funext i j
  unfold clip_column inplace_clipping
  rcases lt_or_le C (rowNorm (tsr i)) with h | h
  · rw [if_pos h, div_div_eq_mul_div, mul_div_assoc]
    congr 1
    refine min_eq_left ?_
    rcases eq_or_lt_of_le (rowNorm_nonneg (tsr i)) with hz | hz
    · rw [← hz, div_zero]
      norm_num
    · exact (div_le_one hz).mpr h.le
  · rw [if_neg (not_lt.mpr h)]
    rcases eq_or_lt_of_le (rowNorm_nonneg (tsr i)) with hz | hz
    · rw [(rowNorm_eq_zero_iff (tsr i)).mp hz.symm j, zero_mul]
    · rw [min_eq_right ((one_le_div hz).mpr h), mul_one]

lemma clip_row_unchanged {n k : ℕ} (tsr : Matrix (Fin n) (Fin k) ℝ) {C : ℝ}
    (i : Fin n) (h : rowNorm (tsr i) ≤ C) : clip_column tsr C i = tsr i := by
  funext j
  unfold clip_column
  rcases eq_or_lt_of_le (rowNorm_nonneg (tsr i)) with hz | hz
  · rw [(rowNorm_eq_zero_iff (tsr i)).mp hz.symm j, zero_mul]
  · rw [min_eq_right ((one_le_div hz).mpr h), mul_one]

lemma clip_row_scaled {n k : ℕ} (tsr : Matrix (Fin n) (Fin k) ℝ) {C : ℝ}
    (hC : 0 < C) (i : Fin n) (h : C < rowNorm (tsr i)) :
    clip_column tsr C i = fun j => tsr i j * (C / rowNorm (tsr i)) := by
  funext j
  unfold clip_column
  rw [min_eq_left ((div_le_one (lt_trans hC h)).mpr h.le)]

/-- C3: for every embedding matrix and clip bound C > 0, every row of the
clipped result (functional and in-place variant alike) has L2 norm at most C;
a row whose norm is at most C is left unchanged, and a row whose norm exceeds
C is scaled by C divided by its norm. -/
theorem clip_column_spec {n k : ℕ} (tsr : Matrix (Fin n) (Fin k) ℝ) (C : ℝ)
    (hC : 0 < C) (i : Fin n) :
    rowNorm (clip_column tsr C i) ≤ C ∧
    rowNorm (inplace_clipping tsr C i) ≤ C ∧
    (rowNorm (tsr i) ≤ C →
      clip_column tsr C i = tsr i ∧ inplace_clipping tsr C i = tsr i) ∧
    (C < rowNorm (tsr i) →
      clip_column tsr C i = (fun j => tsr i j * (C / rowNorm (tsr i))) ∧
      inplace_clipping tsr C i = fun j => tsr i j * (C / rowNorm (tsr i))) := by
  have hip := clip_column_eq_inplace_aux tsr C
  have hmain : rowNorm (clip_column tsr C i) ≤ C := by
    rcases le_or_lt (rowNorm (tsr i)) C with h | h
    · rw [clip_row_unchanged tsr i h]
      exact h
    · have hz : 0 < rowNorm (tsr i) := lt_trans hC h
      rw [clip_row_scaled tsr hC i h, rowNorm_scale,
        abs_of_pos (div_pos hC hz), div_mul_cancel₀ _ (ne_of_gt hz)]
  refine ⟨hmain, ?_, ?_, ?_⟩
  · rw [← hip]
    exact hmain
  · intro h
    refine ⟨clip_row_unchanged tsr i h, ?_⟩
    rw [← hip]
    exact clip_row_unchanged tsr i h
  · intro h
    refine ⟨clip_row_scaled tsr hC i h, ?_⟩
    rw [← hip]
    exact clip_row_scaled tsr hC i h

/-- Witness for C3 at the concrete row (3, 4) with C = 1: the row norm is 5,
so the theorem applies with its hypothesis 0 < 1 discharged. -/
theorem clip_column_spec_witness :
    rowNorm (clip_column !![(3:ℝ), 4] 1 0) ≤ 1 ∧
    rowNorm (inplace_clipping !![(3:ℝ), 4] 1 0) ≤ 1 ∧
    (rowNorm (!![(3:ℝ), 4] 0) ≤ 1 →
      clip_column !![(3:ℝ), 4] 1 0 = !![(3:ℝ), 4] 0 ∧
      inplace_clipping !![(3:ℝ), 4] 1 0 = !![(3:ℝ), 4] 0) ∧
    (1 < rowNorm (!![(3:ℝ), 4] 0) →
      clip_column !![(3:ℝ), 4] 1 0 =
        (fun j => !![(3:ℝ), 4] 0 j * (1 / rowNorm (!![(3:ℝ), 4] 0))) ∧
      inplace_clipping !![(3:ℝ), 4] 1 0 =
        fun j => !![(3:ℝ), 4] 0 j * (1 / rowNorm (!![(3:ℝ), 4] 0))) :=
  clip_column_spec !![(3:ℝ), 4] 1 one_pos 0

/-- C4: a row of zero L2 norm is left unchanged by both clipping kernels for
every clip bound C > 0; in particular the division in the scale factor never
corrupts a zero row (the real-valued model has no NaN or Inf to produce). -/
theorem clip_zero_norm_row {n k : ℕ} (tsr : Matrix (Fin n) (Fin k) ℝ) (C : ℝ)
    (hC : 0 < C) (i : Fin n) (h0 : rowNorm (tsr i) = 0) :
    clip_column tsr C i = tsr i ∧ inplace_clipping tsr C i = tsr i := by
  have h := clip_row_unchanged tsr i (h0.trans_le hC.le)
  refine ⟨h, ?_⟩
  rw [← clip_column_eq_inplace_aux tsr C]
  exact h

/-- Witness for C4 at the zero row (0, 0) with C = 1. -/
theorem clip_zero_norm_row_witness :
    clip_column !![(0:ℝ), 0] 1 0 = !![(0:ℝ), 0] 0 ∧
    inplace_clipping !![(0:ℝ), 0] 1 0 = !![(0:ℝ), 0] 0 :=
  clip_zero_norm_row !![(0:ℝ), 0] 1 one_pos 0
    (by simp [rowNorm, Fin.sum_univ_two])

lemma totalSize_cons {α : Type} (p : Param α) (ps : List (Param α)) :
    totalSize (p :: ps) = shapeSize p.shape + totalSize ps := by
  simp [totalSize]

/-- C8: flattening the parameter values and inflating the resulting vector
back through update_param with the same ordered shape descriptors reproduces
the model exactly, one slice of count(shape) elements per parameter, in the
same fixed iteration order.  The hypothesis is the torch invariant that every
parameter tensor holds exactly count(shape) elements. -/
theorem flatten_inflate_id {α : Type} (model : List (Param α))
    (h : ∀ p ∈ model, p.data.length = shapeSize p.shape) :
    update_param model (get_model_param_vec model) = some model := by
  induction model with
  | nil => rfl
  | cons p ps ih =>
    have hp : p.data.length = shapeSize p.shape := h p (List.mem_cons_self p ps)
    have hvec : get_model_param_vec (p :: ps) =
        p.data ++ get_model_param_vec ps := by
      simp [get_model_param_vec]
    rw [hvec, update_param, ← hp, List.take_left, List.drop_left]
    rw [if_pos rfl]
    rw [ih fun q hq => h q (List.mem_cons_of_mem p hq)]
    rfl

/-- Witness for C8 on the spec's scenario model: three parameters of shapes
(2), (3,2), (1), nine elements in total. -/
theorem flatten_inflate_id_witness :
    update_param
      [(⟨[2], [1, 2], [0, 0]⟩ : Param ℤ),
       ⟨[3, 2], [3, 4, 5, 6, 7, 8], [0, 0, 0, 0, 0, 0]⟩, ⟨[1], [9], [0]⟩]
      (get_model_param_vec
        [(⟨[2], [1, 2], [0, 0]⟩ : Param ℤ),
         ⟨[3, 2], [3, 4, 5, 6, 7, 8], [0, 0, 0, 0, 0, 0]⟩, ⟨[1], [9], [0]⟩]) =
      some
        [(⟨[2], [1, 2], [0, 0]⟩ : Param ℤ),
         ⟨[3, 2], [3, 4, 5, 6, 7, 8], [0, 0, 0, 0, 0, 0]⟩, ⟨[1], [9], [0]⟩] :=
  flatten_inflate_id
    [(⟨[2], [1, 2], [0, 0]⟩ : Param ℤ),
     ⟨[3, 2], [3, 4, 5, 6, 7, 8], [0, 0, 0, 0, 0, 0]⟩, ⟨[1], [9], [0]⟩]
    (by decide)

/-- C10: inflating a vector of exactly the model's total element count into
the gradient storage through update_grad and flattening the gradients again
returns the vector unchanged. -/
theorem inflate_flatten_id {α : Type} (model : List (Param α)) (vec : List α)
    (h : vec.length = totalSize model) :
    (update_grad model vec).map get_model_grad_vec = some vec := by
  induction model generalizing vec with
  | nil =>
    have hv : vec = [] := List.length_eq_zero.mp (by simpa [totalSize] using h)
    subst hv
    rfl
  | cons p ps ih =>
    rw [totalSize_cons] at h
    have hle : shapeSize p.shape ≤ vec.length := by omega
    have htake : (vec.take (shapeSize p.shape)).length = shapeSize p.shape := by
      rw [List.length_take]
      omega
    have hdrop : (vec.drop (shapeSize p.shape)).length = totalSize ps := by
      rw [List.length_drop]
      omega
    have ih' := ih (vec.drop (shapeSize p.shape)) hdrop
    rw [update_grad, if_pos htake]
    obtain ⟨m', hm'⟩ : ∃ m',
        update_grad ps (vec.drop (shapeSize p.shape)) = some m' := by
      cases hu : update_grad ps (vec.drop (shapeSize p.shape)) with
      | none =>
        rw [hu] at ih'
        simp at ih'
      | some m' => exact ⟨m', rfl⟩
    rw [hm'] at ih'
    simp only [Option.map_some'] at ih'
    have hgm : get_model_grad_vec m' = vec.drop (shapeSize p.shape) :=
      Option.some.inj ih'
    rw [hm']
    simp only [Option.map_some', Option.some.injEq]
    show vec.take (shapeSize p.shape) ++ get_model_grad_vec m' = vec
    rw [hgm, List.take_append_drop]

/-- Witness for C10 on the nine-element scenario vector. -/
theorem inflate_flatten_id_witness :
    (update_grad
        [(⟨[2], [0, 0], [0, 0]⟩ : Param ℤ),
         ⟨[3, 2], [0, 0, 0, 0, 0, 0], [0, 0, 0, 0, 0, 0]⟩, ⟨[1], [0], [0]⟩]
        [1, 2, 3, 4, 5, 6, 7, 8, 9]).map get_model_grad_vec =
      some [1, 2, 3, 4, 5, 6, 7, 8, 9] :=
  inflate_flatten_id
    [(⟨[2], [0, 0], [0, 0]⟩ : Param ℤ),
     ⟨[3, 2], [0, 0, 0, 0, 0, 0], [0, 0, 0, 0, 0, 0]⟩, ⟨[1], [0], [0]⟩]
    [1, 2, 3, 4, 5, 6, 7, 8, 9] (by decide)

/-- C2, counterexample: update_grad silently succeeds on a vector that is
longer than the sum of the declared parameter shape counts (here length 3
against a single parameter of shape (2)), writing the first two elements and
ignoring the third, instead of failing with a shape mismatch. -/
theorem update_grad_overlong_succeeds :
    update_grad [(⟨[2], [0, 0], [0, 0]⟩ : Param ℤ)] [1, 2, 3] =
      some [⟨[2], [0, 0], [1, 2]⟩] ∧
    ([1, 2, 3] : List ℤ).length ≠ totalSize [(⟨[2], [0, 0], [0, 0]⟩ : Param ℤ)] := by
  constructor
  · decide
  · decide

/-- C2, amended: update_grad fails (modelling the RuntimeError of the tensor
reshape) exactly when the vector holds fewer elements than the sum of the
declared parameter shape counts; a vector with extra elements silently
succeeds, the excess being ignored. -/
theorem update_grad_fails_iff {α : Type} (model : List (Param α))
    (vec : List α) :
    update_grad model vec = none ↔ vec.length < totalSize model := by
  induction model generalizing vec with
  | nil => simp [update_grad, totalSize]
  | cons p ps ih =>
    rw [totalSize_cons, update_grad]
    rcases le_or_lt (shapeSize p.shape) vec.length with hle | hlt
    · have htake : (vec.take (shapeSize p.shape)).length = shapeSize p.shape := by
        rw [List.length_take]
        omega
      rw [if_pos htake, Option.map_eq_none', ih (vec.drop (shapeSize p.shape)),
        List.length_drop]
      omega
    · have htake :
          ¬(vec.take (shapeSize p.shape)).length = shapeSize p.shape := by
        rw [List.length_take]
        omega
      rw [if_neg htake]
      simp only [true_iff]
      omega

lemma P_SGD_DP_ok {n k d : ℕ} {nm C : ℝ} (hn : 0 < n)
    (hstd : 0 ≤ nm * C / (n : ℝ)) (P : Matrix (Fin k) (Fin d) ℝ) (g : ℕ → ℝ)
    (grad : Matrix (Fin n) (Fin d) ℝ) :
    P_SGD_DP P g grad nm C =
      Except.ok
        (statsTriple (fun i => rowNorm (project P grad i)),
         statsTriple (fun i => rowNorm (clip_column (project P grad) C i)),
         reconstruct (m := 1) P
           (fun _ =>
             inject_noise nm C n g
               (avg_clipped (clip_column (project P grad) C))) 0) := by
  simp only [P_SGD_DP, normsStat, if_pos hn, if_neg (not_lt.mpr hstd)]

lemma P_SGD_DP_negStd {n k d : ℕ} {nm C : ℝ} (hn : 0 < n)
    (hstd : nm * C / (n : ℝ) < 0) (P : Matrix (Fin k) (Fin d) ℝ) (g : ℕ → ℝ)
    (grad : Matrix (Fin n) (Fin d) ℝ) :
    P_SGD_DP P g grad nm C = Except.error StepError.negativeStd := by
  simp only [P_SGD_DP, normsStat, if_pos hn, if_pos hstd]

/-- C1, counterexample: a call with an empty gradient batch does not fail
with EmptyBatch (it fails with the runtime error of the empty max/median
reduction in the norm diagnostics), and a call with clip bound C = -1 on a
one-row batch does not fail with InvalidClipBound before any division: the
clipping division by the row norm is performed, and the step fails only later
with the negative-std RuntimeError of the torch.normal draw. -/
theorem pSGD_DP_validation_cex :
    P_SGD_DP (n := 0) (k := 1) (d := 1) (fun _ _ => 1) (fun _ => 0)
        (fun _ _ => 0) 1 1 ≠ Except.error StepError.EmptyBatch ∧
    P_SGD_DP (n := 1) (k := 1) (d := 1) (fun _ _ => 1) (fun _ => 0)
        (fun _ _ => 0) 1 (-1) ≠ Except.error StepError.InvalidClipBound := by
  constructor
  · simp [P_SGD_DP, normsStat]
  · rw [P_SGD_DP_negStd one_pos (by norm_num)]
    simp

/-- C1, amended: P_SGD_DP validates neither the batch size nor the clip
bound.  A call with n = 0 fails, but only with the runtime error raised by
the max/median reduction over the empty norm tensor (by which point the
mean-based diagnostics have already been computed), never with EmptyBatch.
A call with a nonempty batch never fails with InvalidClipBound, and the
division of C by the row norms is attempted for every C: the step completes
whenever the derived noise standard deviation nm * C / n is nonnegative (so
in particular for C ≤ 0 with nm = 0), and when nm * C / n is negative it
fails only at the torch.normal draw, after clipping, with the negative-std
RuntimeError. -/
theorem pSGD_DP_no_validation {n k d : ℕ} (P : Matrix (Fin k) (Fin d) ℝ)
    (g : ℕ → ℝ) (grad : Matrix (Fin n) (Fin d) ℝ) (nm C : ℝ) :
    (n = 0 → P_SGD_DP P g grad nm C = Except.error StepError.emptyReduction) ∧
    (0 < n → 0 ≤ nm * C / (n : ℝ) →
      ∀ e, P_SGD_DP P g grad nm C ≠ Except.error e) ∧
    (0 < n → nm * C / (n : ℝ) < 0 →
      P_SGD_DP P g grad nm C = Except.error StepError.negativeStd) := by
  refine ⟨?_, ?_, ?_⟩
  · intro h
    subst h
    simp [P_SGD_DP, normsStat]
  · intro hn hstd e
    rw [P_SGD_DP_ok hn hstd]
    simp
  · intro hn hstd
    exact P_SGD_DP_negStd hn hstd P g grad

/-- Witness for C1 (amended): the empty-batch branch at n = 0, the completed
step at n = 1 with nm = 0 and C = -1 (std 0), and the negative-std failure at
n = 1 with nm = 1 and C = -1; all hypotheses discharged concretely. -/
theorem pSGD_DP_no_validation_witness :
    P_SGD_DP (n := 0) (k := 1) (d := 1) (fun _ _ => 1) (fun _ => 0)
        (fun _ _ => 0) 1 1 = Except.error StepError.emptyReduction ∧
    P_SGD_DP (n := 1) (k := 1) (d := 1) (fun _ _ => 1) (fun _ => 0)
        (fun _ _ => 0) 0 (-1) ≠ Except.error StepError.InvalidClipBound ∧
    P_SGD_DP (n := 1) (k := 1) (d := 1) (fun _ _ => 1) (fun _ => 0)
        (fun _ _ => 0) 1 (-1) = Except.error StepError.negativeStd :=
  ⟨(pSGD_DP_no_validation (n := 0) (k := 1) (d := 1) (fun _ _ => 1)
      (fun _ => 0) (fun _ _ => 0) 1 1).1 rfl,
   (pSGD_DP_no_validation (n := 1) (k := 1) (d := 1) (fun _ _ => 1)
      (fun _ => 0) (fun _ _ => 0) 0 (-1)).2.1 one_pos (by norm_num)
     StepError.InvalidClipBound,
   (pSGD_DP_no_validation (n := 1) (k := 1) (d := 1) (fun _ _ => 1)
      (fun _ => 0) (fun _ _ => 0) 1 (-1)).2.2 one_pos (by norm_num)⟩

/-- C5, counterexample: two calls of P_SGD_DP with identical per-call
arguments but different states of the global generator stream return
different results, so the noise is read from torch's ambient global
generator (the call at line 398 passes no generator) and not from any
per-call provided random source. -/
theorem noise_uses_global_generator :
    P_SGD_DP (n := 1) (k := 1) (d := 1) (fun _ _ => 1) (fun _ => 0)
        (fun _ _ => 0) 1 1 ≠
      P_SGD_DP (n := 1) (k := 1) (d := 1) (fun _ _ => 1) (fun _ => 1)
        (fun _ _ => 0) 1 1 := by
  intro h
  rw [P_SGD_DP_ok one_pos (by norm_num), P_SGD_DP_ok one_pos (by norm_num)] at h
  simp only [Except.ok.injEq, Prod.mk.injEq] at h
  have h4 := congrFun h.2.2 0
  simp only [reconstruct, Matrix.mul_apply, Fin.sum_univ_one, inject_noise,
    mul_one, mul_zero, add_zero, Nat.cast_one, div_one] at h4
  norm_num at h4

/-- C5, amended: the noise added to the aggregated clipped embedding is
elementwise independent Gaussian with mean 0 and standard deviation exactly
noise_multiplier * clip / n - component j of the injected noise is exactly
that scale times the j-th standard normal draw of the generator stream - but
the stream is torch's global default generator, not a per-call provided
random source. -/
theorem inject_noise_scale {k : ℕ} (nm C : ℝ) (n : ℕ) (g : ℕ → ℝ)
    (theta : Fin k → ℝ) (j : Fin k) :
    inject_noise nm C n g theta j - theta j = nm * C / n * g j.val := by
  simp [inject_noise]

/-- C6: injecting noise with noise multiplier 0 returns the aggregate
unchanged; inject_noise is the single formula used by P_SGD_DP for every
noise multiplier, so the degenerate case goes through the same code path
rather than a separate branch. -/
theorem inject_noise_zero_sigma {k : ℕ} (C : ℝ) (n : ℕ) (g : ℕ → ℝ)
    (theta : Fin k → ℝ) : inject_noise 0 C n g theta = theta := by
  funext j
  simp [inject_noise]

lemma orthonormalRows_mul_transpose {k d : ℕ} {P : Matrix (Fin k) (Fin d) ℝ}
    (hP : orthonormalRows P) : P * P.transpose = 1 := by
  ext i j
  rw [Matrix.mul_apply, Matrix.one_apply]
  simpa [Matrix.dotProduct, Matrix.transpose_apply] using hP i j

/-- C7: for a basis with orthonormal rows, projecting the reconstruction of
any embedding w gives back w exactly; and reconstructing the projection of a
batch v returns v exactly when v lies in the row span of the basis, i.e. when
v is the reconstruction of some embedding. -/
theorem project_reconstruct_roundtrip {k d : ℕ} (P : Matrix (Fin k) (Fin d) ℝ)
    (hP : orthonormalRows P) :
    (∀ m : ℕ, ∀ w : Matrix (Fin m) (Fin k) ℝ,
      project P (reconstruct P w) = w) ∧
    (∀ m : ℕ, ∀ v : Matrix (Fin m) (Fin d) ℝ,
      reconstruct P (project P v) = v ↔
        ∃ w : Matrix (Fin m) (Fin k) ℝ, reconstruct P w = v) := by
  have h1 := orthonormalRows_mul_transpose hP
  constructor
  · intro m w
    unfold project reconstruct
    rw [Matrix.mul_assoc, h1, Matrix.mul_one]
  · intro m v
    constructor
    · intro hv
      exact ⟨project P v, hv⟩
    · rintro ⟨w, rfl⟩
      unfold project reconstruct
      rw [Matrix.mul_assoc w P P.transpose, h1, Matrix.mul_one]

/-- Witness for C7 with the concrete orthonormal 1-by-2 basis (1, 0) and the
embedding (5). -/
theorem project_reconstruct_roundtrip_witness :
    project !![(1:ℝ), 0] (reconstruct !![(1:ℝ), 0] !![(5:ℝ)]) = !![(5:ℝ)] :=
  (project_reconstruct_roundtrip !![(1:ℝ), 0]
    (by
      intro i j
      fin_cases i
      fin_cases j
      norm_num [Matrix.dotProduct, Fin.sum_univ_two])).1 1 !![(5:ℝ)]
